import Mathlib

/-!
# Verification of the Web3 analytics metrics engine

Shallow embedding of the pure metric functions of `src/main.py`
(class `Web3Analytics`) and proofs of the specification claims about them.

Modelling conventions:
* Python floats are modelled as exact real numbers (`ℝ`) where the code
  takes square roots, and as exact rationals (`ℚ`) everywhere else.
* `PortfolioPosition` mirrors the Python dataclass of the same name.
* Functions that consult ambient effects (the global random generator and
  the wall clock) are embedded in state-passing style: the random draws and
  the current time are passed as explicit extra arguments.
-/

/-- Mirrors the Python dataclass `PortfolioPosition` (numeric fields exact). -/
structure PortfolioPosition where
  token : String
  amount : ℚ
  entry_price : ℚ
  current_price : ℚ
  pnl : ℚ
  allocation_percentage : ℚ
  deriving DecidableEq

/-- The characters of the Python literal `'0123456789abcdefABCDEF'` used by
`validate_address` for the hex-digit membership test. -/
def hex_chars : List Char :=
  ['0', '1', '2', '3', '4', '5', '6', '7', '8', '9'] ++
    ['a', 'b', 'c', 'd', 'e', 'f'] ++ ['A', 'B', 'C', 'D', 'E', 'F']

/-- Embeds `Web3Analytics.validate_address`: the address must be non-empty,
start with the two characters `0x`, have length 42, and every character
after the first two must occur in `hex_chars`. -/
def validate_address (address : String) : Bool :=
  if address.isEmpty then false
  else
    decide (address.toList.take 2 = ['0', 'x']) && (address.length == 42) &&
      (address.toList.drop 2).all (fun c => hex_chars.contains c)

/-- Embeds `Web3Analytics.calculate_impermanent_loss` over exact reals:
nonpositive ratios yield 0, otherwise the code computes
`ratio_change = current / initial`, takes its square root, and returns
`abs (2 * sqrt_value / (1 + ratio_change) - 1) * 100`. -/
noncomputable def calculate_impermanent_loss
    (initial_price_ratio current_price_ratio : ℝ) : ℝ :=
  if initial_price_ratio ≤ 0 ∨ current_price_ratio ≤ 0 then 0
  else
    let ratio_change := current_price_ratio / initial_price_ratio
    |2 * Real.sqrt ratio_change / (1 + ratio_change) - 1| * 100

/-- Python `min` over a non-empty collection of rationals (first element is
the initial accumulator; the `[]` case is never reached by the source,
which raises there). -/
def list_min : List ℚ → ℚ
  | [] => 0
  | x :: xs => xs.foldl min x

/-- Python `max` over a non-empty collection of rationals. -/
def list_max : List ℚ → ℚ
  | [] => 0
  | x :: xs => xs.foldl max x

/-- The part of the arbitrage report of
`Web3Analytics.analyze_arbitrage_opportunity` that is computed from the
exchange-price mapping (the remaining dict entries are constants or ambient
effects, embedded separately in `analyze_arbitrage_opportunity_src`). -/
structure ArbitrageReport where
  profitable : Bool
  profit_percentage : ℚ
  buy_exchange : String
  sell_exchange : String
  buy_price : ℚ
  sell_price : ℚ
  deriving DecidableEq

/-- Embeds the price analysis of `Web3Analytics.analyze_arbitrage_opportunity`
(lines 131-145 of `src/main.py`), with the exchange-price mapping supplied as
an association list in iteration order, as §4 of the specification directs
for the randomly mocked prices. `buy_exchange` / `sell_exchange` are the
first exchanges carrying the minimal / maximal price, mirroring the Python
list comprehensions indexed at `[0]`. -/
def analyze_arbitrage_opportunity (exchange_prices : List (String × ℚ)) :
    ArbitrageReport :=
  let values := exchange_prices.map Prod.snd
  let min_price := list_min values
  let max_price := list_max values
  let profit_percentage := (max_price - min_price) / min_price * 100
  { profitable := decide (profit_percentage > 0.5)
    profit_percentage := profit_percentage
    buy_exchange :=
      ((exchange_prices.find? (fun q => q.2 == min_price)).map Prod.fst).getD ""
    sell_exchange :=
      ((exchange_prices.find? (fun q => q.2 == max_price)).map Prod.fst).getD ""
    buy_price := min_price
    sell_price := max_price }

/-- Embeds `total_value` of `Web3Analytics.calculate_portfolio_metrics`:
`sum(pos.amount * pos.current_price)`. -/
def total_value (positions : List PortfolioPosition) : ℚ :=
  (positions.map (fun pos => pos.amount * pos.current_price)).sum

/-- Embeds `total_invested` of `calculate_portfolio_metrics`:
`sum(pos.amount * pos.entry_price)`. -/
def total_invested (positions : List PortfolioPosition) : ℚ :=
  (positions.map (fun pos => pos.amount * pos.entry_price)).sum

/-- Embeds `portfolio_pnl` of `calculate_portfolio_metrics`. -/
def unrealized_pnl (positions : List PortfolioPosition) : ℚ :=
  total_value positions - total_invested positions

/-- Embeds `portfolio_pnl_percentage` of `calculate_portfolio_metrics`:
`(pnl / total_invested) * 100 if total_invested > 0 else 0`. -/
def pnl_percentage (positions : List PortfolioPosition) : ℚ :=
  if 0 < total_invested positions then
    unrealized_pnl positions / total_invested positions * 100
  else 0

/-- Embeds `Web3Analytics._calculate_volatility`: sample standard deviation
of the returns, 0 when fewer than two data points. -/
noncomputable def calculate_volatility (returns : List ℝ) : ℝ :=
  if returns.length < 2 then 0
  else
    let mean_return := returns.sum / returns.length
    let variance :=
      ((returns.map (fun r => (r - mean_return) ^ 2)).sum) /
        ((returns.length - 1 : ℕ) : ℝ)
    Real.sqrt variance

/-- Embeds `Web3Analytics._calculate_sharpe_ratio` (the source's default
risk-free rate 0.02 is passed explicitly by the caller). -/
noncomputable def calculate_sharpe (returns : List ℝ) (risk_free_rate : ℝ) : ℝ :=
  if returns = [] then 0
  else
    let mean_return := returns.sum / returns.length
    let volatility := calculate_volatility returns
    if volatility = 0 then 0
    else (mean_return - risk_free_rate) / volatility

/-- Embeds `Web3Analytics._calculate_diversification_score`: 0 on the empty
list, otherwise `(1 - hhi) * 100` with `hhi = sum(alloc ** 2) / 10000`,
clamped by `min(max(score, 0), 100)`. -/
def calculate_diversification_score (positions : List PortfolioPosition) : ℚ :=
  if positions = [] then 0
  else
    let hhi := (positions.map (fun pos => pos.allocation_percentage ^ 2)).sum / 10000
    let score := (1 - hhi) * 100
    min (max score 0) 100

/-- Embeds `Web3Analytics._generate_recommendation`, keyed on the
`net_apy` entry of the position metrics. -/
def generate_recommendation (net_apy : ℚ) : String :=
  if net_apy > 15 then "STRONG BUY - Excellent yield opportunity with manageable risk"
  else if net_apy > 8 then "BUY - Good yield opportunity, monitor impermanent loss"
  else if net_apy > 3 then "HOLD - Moderate opportunity, consider alternatives"
  else "AVOID - Poor risk-adjusted returns"

/-- Embeds `max(positions, key=lambda x: x.allocation_percentage).token` of
`calculate_portfolio_metrics`: Python `max` keeps the first element whose
key is maximal (a later element replaces the champion only when strictly
greater). The source raises on `[]`; the `""` default is never consumed by
any theorem below. -/
def largest_position : List PortfolioPosition → String
  | [] => ""
  | p :: ps =>
    (ps.foldl
      (fun best q =>
        if q.allocation_percentage > best.allocation_percentage then q else best)
      p).token

/-- The full dictionary returned by `Web3Analytics.calculate_portfolio_metrics`
(the rounding applied to the presentation of `pnl_percentage`, `volatility`
and `sharpe_ratio` in the Python dict literal is omitted; the claims quote
the unrounded formulas). -/
structure PortfolioMetricsReport where
  value_total : ℚ
  invested_total : ℚ
  pnl : ℚ
  pnl_pct : ℚ
  position_count : ℕ
  volatility : ℝ
  sharpe : ℝ
  largest : String
  diversification : ℚ
  last_updated : String

/-- Embeds `Web3Analytics.calculate_portfolio_metrics` in state-passing
style: the source reads the wall clock (`datetime.datetime.now()`) for the
`last_updated` entry, so the current time is an explicit extra argument. -/
noncomputable def calculate_portfolio_metrics
    (positions : List PortfolioPosition) (now : String) : PortfolioMetricsReport :=
  let daily_returns := positions.map (fun pos => (pos.pnl : ℝ))
  { value_total := total_value positions
    invested_total := total_invested positions
    pnl := unrealized_pnl positions
    pnl_pct := pnl_percentage positions
    position_count := positions.length
    volatility := calculate_volatility daily_returns
    sharpe := calculate_sharpe daily_returns 0.02
    largest := largest_position positions
    diversification := calculate_diversification_score positions
    last_updated := now }

/-- The full dictionary returned by
`Web3Analytics.analyze_arbitrage_opportunity`. -/
structure ArbitrageFullReport where
  token : String
  profitable : Bool
  profit_percentage : ℚ
  buy_exchange : String
  sell_exchange : String
  buy_price : ℚ
  sell_price : ℚ
  volume_required : ℚ
  gas_cost_estimate : ℚ
  timestamp : String
  deriving DecidableEq

/-- Embeds `Web3Analytics.analyze_arbitrage_opportunity` in state-passing
style. The source draws one `random.uniform(1000, 1200)` price per exchange,
one `random.uniform(20, 100)` gas estimate, and reads the wall clock; those
ambient effects are explicit arguments here (`price_draws`, `gas_draw`,
`now`), so the dict comprehension building `exchange_prices` becomes a zip
in iteration order. -/
def analyze_arbitrage_opportunity_src (token_symbol : String)
    (exchanges : List String) (price_draws : List ℚ) (gas_draw : ℚ)
    (now : String) : ArbitrageFullReport :=
  let exchange_prices := exchanges.zip price_draws
  let core := analyze_arbitrage_opportunity exchange_prices
  { token := token_symbol
    profitable := core.profitable
    profit_percentage := core.profit_percentage
    buy_exchange := core.buy_exchange
    sell_exchange := core.sell_exchange
    buy_price := core.buy_price
    sell_price := core.sell_price
    volume_required := 10000
    gas_cost_estimate := gas_draw
    timestamp := now }

/-- The fields of the arbitrage report that the specification describes as
the deterministic opportunity analysis (everything except the ambient gas
estimate draw and the timestamp). -/
def arbitrage_trading_view (r : ArbitrageFullReport) :
    String × Bool × ℚ × String × String × ℚ × ℚ :=
  (r.token, r.profitable, r.profit_percentage, r.buy_exchange,
    r.sell_exchange, r.buy_price, r.sell_price)

/-- The fields of the metrics report that the specification describes as
pure functions of the positions (everything except the timestamp). -/
noncomputable def portfolio_numeric_view (m : PortfolioMetricsReport) :
    ℚ × ℚ × ℚ × ℚ × ℕ × ℝ × ℝ × String × ℚ :=
  (m.value_total, m.invested_total, m.pnl, m.pnl_pct, m.position_count,
    m.volatility, m.sharpe, m.largest, m.diversification)

/-- Modelled from the claim wording for comparison with
`calculate_diversification_score`: the score the specification states,
`(1 - Σ (allocation_i / 100)^2) * 100` clamped to `[0, 100]`, with no
special case for the empty portfolio. -/
def diversification_score_formula (positions : List PortfolioPosition) : ℚ :=
  min
    (max ((1 - (positions.map
      (fun pos => (pos.allocation_percentage / 100) ^ 2)).sum) * 100) 0)
    100

/-- Spec-side reading of "hexadecimal digit (either case)": the code point
lies in `48..57` (the digits `0`-`9`), `97..102` (`a`-`f`), or `65..70`
(`A`-`F`). -/
def is_hex_digit_char (c : Char) : Bool :=
  (decide (48 ≤ c.toNat) && decide (c.toNat ≤ 57)) ||
  (decide (97 ≤ c.toNat) && decide (c.toNat ≤ 102)) ||
  (decide (65 ≤ c.toNat) && decide (c.toNat ≤ 70))

/-! ## Helper lemmas -/

lemma hhi_sum_div (ps : List PortfolioPosition) :
    (ps.map (fun pos => (pos.allocation_percentage / 100) ^ 2)).sum =
      (ps.map (fun pos => pos.allocation_percentage ^ 2)).sum / 10000 := by
  induction ps with
  | nil => simp
  | cons p t ih =>
    simp only [List.map_cons, List.sum_cons, ih]
    ring

set_option maxRecDepth 2048 in
lemma hex_code_mem : ∀ m : Nat, m < 128 →
    ((48 ≤ m ∧ m ≤ 57) ∨ (97 ≤ m ∧ m ≤ 102) ∨ (65 ≤ m ∧ m ≤ 70)) →
    hex_chars.contains (Char.ofNat m) = true := by decide

lemma contains_hex_iff (c : Char) :
    hex_chars.contains c = true ↔ is_hex_digit_char c = true := by
  constructor
  · intro h
    have hm : c ∈ hex_chars := by
      simpa [List.contains_iff_exists_mem_beq, beq_iff_eq] using h
    fin_cases hm <;> decide
  · intro h
    simp only [is_hex_digit_char, Bool.or_eq_true, Bool.and_eq_true,
      decide_eq_true_iff] at h
    rw [or_assoc] at h
    have hlt : c.toNat < 128 := by omega
    have hc := hex_code_mem c.toNat hlt h
    rwa [Char.ofNat_toNat] at hc

lemma validate_address_iff (s : String) :
    validate_address s = true ↔
      (s.toList.take 2 = ['0', 'x'] ∧ s.length = 42 ∧
        ∀ c ∈ s.toList.drop 2, is_hex_digit_char c = true) := by
  rw [validate_address]
  by_cases he : s.isEmpty
  · rw [if_pos he]
    rw [String.isEmpty_iff] at he
    subst he
    constructor
    · intro h
      simp at h
    · rintro ⟨-, h42, -⟩
      exact absurd h42 (by decide)
  · rw [if_neg he]
    simp only [Bool.and_eq_true, decide_eq_true_iff, beq_iff_eq, List.all_eq_true]
    constructor
    · rintro ⟨⟨h1, h2⟩, h3⟩
      exact ⟨h1, h2, fun c hc => (contains_hex_iff c).mp (h3 c hc)⟩
    · rintro ⟨h1, h2, h3⟩
      exact ⟨⟨h1, h2⟩, fun c hc => (contains_hex_iff c).mpr (h3 c hc)⟩

lemma il_body_symm (x : ℝ) (hx : 0 < x) :
    2 * Real.sqrt x⁻¹ / (1 + x⁻¹) = 2 * Real.sqrt x / (1 + x) := by
  have hs : 0 < Real.sqrt x := Real.sqrt_pos.mpr hx
  have hx1 : (0 : ℝ) < 1 + x := by linarith
  have hxi : (0 : ℝ) < 1 + x⁻¹ := by positivity
  rw [Real.sqrt_inv]
  rw [div_eq_div_iff (ne_of_gt hxi) (ne_of_gt hx1)]
  have hmul : Real.sqrt x * Real.sqrt x = x := Real.mul_self_sqrt hx.le
  field_simp
  nlinarith [hmul]

lemma calculate_impermanent_loss_pos (i c : ℝ) (hi : 0 < i) (hc : 0 < c) :
    calculate_impermanent_loss i c =
      |2 * Real.sqrt (c / i) / (1 + c / i) - 1| * 100 := by
  rw [calculate_impermanent_loss, if_neg]
  push_neg
  exact ⟨hi, hc⟩

lemma calculate_impermanent_loss_symm (a b : ℝ) :
    calculate_impermanent_loss a b = calculate_impermanent_loss b a := by
  by_cases h : a ≤ 0 ∨ b ≤ 0
  · rw [calculate_impermanent_loss, if_pos h,
      calculate_impermanent_loss, if_pos h.symm]
  · push_neg at h
    obtain ⟨ha, hb⟩ := h
    rw [calculate_impermanent_loss_pos a b ha hb,
      calculate_impermanent_loss_pos b a hb ha]
    have hrw : a / b = (b / a)⁻¹ := by
      rw [inv_div]
    rw [hrw, il_body_symm (b / a) (by positivity)]

lemma foldl_min_le_init (xs : List ℚ) : ∀ x : ℚ, xs.foldl min x ≤ x := by
  induction xs with
  | nil => exact fun x => le_refl x
  | cons a t ih =>
    intro x
    exact le_trans (ih (min x a)) (min_le_left x a)

lemma foldl_min_le_mem (xs : List ℚ) : ∀ x y : ℚ, y ∈ xs → xs.foldl min x ≤ y := by
  induction xs with
  | nil => intro x y hy; cases hy
  | cons a t ih =>
    intro x y hy
    rcases List.mem_cons.mp hy with rfl | hy'
    · exact le_trans (foldl_min_le_init t (min x y)) (min_le_right x y)
    · exact ih (min x a) y hy'

lemma foldl_min_cases (xs : List ℚ) :
    ∀ x : ℚ, xs.foldl min x = x ∨ xs.foldl min x ∈ xs := by
  induction xs with
  | nil => exact fun x => Or.inl rfl
  | cons a t ih =>
    intro x
    rcases ih (min x a) with h | h
    · rcases min_choice x a with hm | hm
      · left
        rw [List.foldl_cons, h, hm]
      · right
        rw [List.foldl_cons, h, hm]
        exact List.mem_cons_self a t
    · right
      rw [List.foldl_cons]
      exact List.mem_cons_of_mem a h

lemma list_min_spec (l : List ℚ) (h : l ≠ []) :
    list_min l ∈ l ∧ ∀ y ∈ l, list_min l ≤ y := by
  match l with
  | x :: xs =>
    refine ⟨?_, fun y hy => ?_⟩
    · rw [list_min]
      rcases foldl_min_cases xs x with h' | h'
      · rw [h']
        exact List.mem_cons_self x xs
      · exact List.mem_cons_of_mem x h'
    · rw [list_min]
      rcases List.mem_cons.mp hy with rfl | hy'
      · exact foldl_min_le_init xs y
      · exact foldl_min_le_mem xs x y hy'

lemma foldl_max_ge_init (xs : List ℚ) : ∀ x : ℚ, x ≤ xs.foldl max x := by
  induction xs with
  | nil => exact fun x => le_refl x
  | cons a t ih =>
    intro x
    exact le_trans (le_max_left x a) (ih (max x a))

lemma foldl_max_ge_mem (xs : List ℚ) : ∀ x y : ℚ, y ∈ xs → y ≤ xs.foldl max x := by
  induction xs with
  | nil => intro x y hy; cases hy
  | cons a t ih =>
    intro x y hy
    rcases List.mem_cons.mp hy with rfl | hy'
    · exact le_trans (le_max_right x y) (foldl_max_ge_init t (max x y))
    · exact ih (max x a) y hy'

lemma foldl_max_cases (xs : List ℚ) :
    ∀ x : ℚ, xs.foldl max x = x ∨ xs.foldl max x ∈ xs := by
  induction xs with
  | nil => exact fun x => Or.inl rfl
  | cons a t ih =>
    intro x
    rcases ih (max x a) with h | h
    · rcases max_choice x a with hm | hm
      · left
        rw [List.foldl_cons, h, hm]
      · right
        rw [List.foldl_cons, h, hm]
        exact List.mem_cons_self a t
    · right
      rw [List.foldl_cons]
      exact List.mem_cons_of_mem a h

lemma list_max_spec (l : List ℚ) (h : l ≠ []) :
    list_max l ∈ l ∧ ∀ y ∈ l, y ≤ list_max l := by
  match l with
  | x :: xs =>
    refine ⟨?_, fun y hy => ?_⟩
    · rw [list_max]
      rcases foldl_max_cases xs x with h' | h'
      · rw [h']
        exact List.mem_cons_self x xs
      · exact List.mem_cons_of_mem x h'
    · rw [list_max]
      rcases List.mem_cons.mp hy with rfl | hy'
      · exact foldl_max_ge_init xs y
      · exact foldl_max_ge_mem xs x y hy'

lemma find?_first {α : Type} (p : α → Bool) (pre post : List α) (a : α)
    (hpre : ∀ x ∈ pre, p x = false) (ha : p a = true) :
    (pre ++ a :: post).find? p = some a := by
  induction pre with
  | nil =>
    simp only [List.nil_append]
    exact List.find?_cons_of_pos post ha
  | cons b t ih =>
    have hb : p b = false := hpre b (List.mem_cons_self b t)
    rw [List.cons_append, List.find?_cons_of_neg _ (by simp [hb])]
    exact ih (fun x hx => hpre x (List.mem_cons_of_mem b hx))

/-! ## Claim theorems -/

/-- C1: `calculate_impermanent_loss` returns 0 when either ratio is
nonpositive; for positive ratios it returns
`abs (2 * sqrt (c / i) / (1 + c / i) - 1) * 100`; and equal positive ratios
give impermanent loss 0. -/
theorem impermanent_loss_spec :
    (∀ i c : ℝ, i ≤ 0 ∨ c ≤ 0 → calculate_impermanent_loss i c = 0) ∧
    (∀ i c : ℝ, 0 < i → 0 < c →
      calculate_impermanent_loss i c =
        |2 * Real.sqrt (c / i) / (1 + c / i) - 1| * 100) ∧
    (∀ r : ℝ, 0 < r → calculate_impermanent_loss r r = 0) := by
  refine ⟨fun i c h => by rw [calculate_impermanent_loss, if_pos h],
    calculate_impermanent_loss_pos, fun r hr => ?_⟩
  rw [calculate_impermanent_loss_pos r r hr hr, div_self (ne_of_gt hr),
    Real.sqrt_one]
  norm_num

/-- Witness for C1: evaluates the theorem at the concrete ratio pairs
`(-1, 1)` and `(1, 1)`. -/
theorem impermanent_loss_spec_witness :
    calculate_impermanent_loss (-1) 1 = 0 ∧ calculate_impermanent_loss 1 1 = 0 :=
  ⟨impermanent_loss_spec.1 (-1) 1 (Or.inl (neg_nonpos.mpr zero_le_one)),
    impermanent_loss_spec.2.2 1 zero_lt_one⟩

/-- C7 counterexample: the claimed asymmetry does not exist — there is no
pair of positive ratios at which swapping the arguments of
`calculate_impermanent_loss` changes the result, because the closed form is
symmetric in exact arithmetic. -/
theorem impermanent_loss_asymmetry_refuted :
    ¬ ∃ a b : ℝ, 0 < a ∧ 0 < b ∧
      calculate_impermanent_loss a b ≠ calculate_impermanent_loss b a := by
  rintro ⟨a, b, -, -, hne⟩
  exact hne (calculate_impermanent_loss_symm a b)

/-- C7 amended: `calculate_impermanent_loss` is symmetric in its two
arguments for every pair of real ratios. -/
theorem impermanent_loss_symm (a b : ℝ) :
    calculate_impermanent_loss a b = calculate_impermanent_loss b a :=
  calculate_impermanent_loss_symm a b

/-- C10: the impermanent-loss percentage is always nonnegative, and for
strictly positive ratios it is strictly below 100. -/
theorem impermanent_loss_range :
    (∀ i c : ℝ, 0 ≤ calculate_impermanent_loss i c) ∧
    (∀ i c : ℝ, 0 < i → 0 < c → calculate_impermanent_loss i c < 100) := by
  constructor
  · intro i c
    rw [calculate_impermanent_loss]
    split
    · exact le_refl 0
    · positivity
  · intro i c hi hc
    rw [calculate_impermanent_loss_pos i c hi hc]
    set x := c / i with hxdef
    have hx : 0 < x := div_pos hc hi
    have hs : 0 < Real.sqrt x := Real.sqrt_pos.mpr hx
    have hx1 : (0 : ℝ) < 1 + x := by linarith
    have hub : 2 * Real.sqrt x ≤ 1 + x := by
      nlinarith [sq_nonneg (Real.sqrt x - 1), Real.sq_sqrt hx.le]
    have ht1 : 2 * Real.sqrt x / (1 + x) ≤ 1 := by
      rw [div_le_one hx1]
      exact hub
    have ht0 : 0 < 2 * Real.sqrt x / (1 + x) := by positivity
    have habs : |2 * Real.sqrt x / (1 + x) - 1| < 1 := by
      rw [abs_lt]
      constructor <;> linarith
    nlinarith [habs]

/-- Witness for C10: evaluates the theorem at the ratio pair `(1, 1)`. -/
theorem impermanent_loss_range_witness :
    0 ≤ calculate_impermanent_loss 1 1 ∧ calculate_impermanent_loss 1 1 < 100 :=
  ⟨impermanent_loss_range.1 1 1, impermanent_loss_range.2 1 1 zero_lt_one zero_lt_one⟩

/-- C2: `validate_address` accepts exactly the strings that start with the
two characters `0x`, have total length 42, and whose remaining 40
characters are hexadecimal digits of either case; in particular `0x`
followed by forty `a` is accepted, `0x` followed by forty `g` is rejected,
and the empty string is rejected. -/
theorem validate_address_spec :
    (∀ s : String, validate_address s = true ↔
      (s.toList.take 2 = ['0', 'x'] ∧ s.length = 42 ∧
        ∀ c ∈ s.toList.drop 2, is_hex_digit_char c = true)) ∧
    validate_address "0xaaaaaaaaaaaaaaaaaaaaaaaaaaaaaaaaaaaaaaaa" = true ∧
    validate_address "0xgggggggggggggggggggggggggggggggggggggggg" = false ∧
    validate_address "" = false :=
  ⟨validate_address_iff, by decide, by decide, by decide⟩

/-- Witness for C2: instantiates the characterisation at a concrete
mixed-case hexadecimal address and evaluates both sides. -/
theorem validate_address_spec_witness :
    validate_address "0xAbCdEf0123456789aBcDeF0123456789AbCdEf01" = true :=
  (validate_address_spec.1 "0xAbCdEf0123456789aBcDeF0123456789AbCdEf01").mpr
    (by decide)

/-- C5: `generate_recommendation` returns the strong-buy message above net
APY 15, the buy message on `(8, 15]`, the hold message on `(3, 8]`, and the
avoid message at or below 3, every boundary value falling in the lower
tier; in particular 16 maps to strong buy, 8 to hold and 3 to avoid. -/
theorem recommendation_spec :
    (∀ x : ℚ, 15 < x → generate_recommendation x =
      "STRONG BUY - Excellent yield opportunity with manageable risk") ∧
    (∀ x : ℚ, 8 < x → x ≤ 15 → generate_recommendation x =
      "BUY - Good yield opportunity, monitor impermanent loss") ∧
    (∀ x : ℚ, 3 < x → x ≤ 8 → generate_recommendation x =
      "HOLD - Moderate opportunity, consider alternatives") ∧
    (∀ x : ℚ, x ≤ 3 → generate_recommendation x =
      "AVOID - Poor risk-adjusted returns") ∧
    generate_recommendation 16 =
      "STRONG BUY - Excellent yield opportunity with manageable risk" ∧
    generate_recommendation 8 =
      "HOLD - Moderate opportunity, consider alternatives" ∧
    generate_recommendation 3 = "AVOID - Poor risk-adjusted returns" := by
  refine ⟨fun x h => ?_, fun x h8 h15 => ?_, fun x h3 h8 => ?_, fun x h3 => ?_,
    by decide, by decide, by decide⟩
  · rw [generate_recommendation, if_pos h]
  · rw [generate_recommendation, if_neg (not_lt.mpr h15), if_pos h8]
  · rw [generate_recommendation, if_neg (not_lt.mpr (h8.trans (by norm_num))),
      if_neg (not_lt.mpr h8), if_pos h3]
  · rw [generate_recommendation, if_neg (not_lt.mpr (h3.trans (by norm_num))),
      if_neg (not_lt.mpr (h3.trans (by norm_num))), if_neg (not_lt.mpr h3)]

/-- Witness for C5: evaluates the tier bounds of the theorem at the
concrete net APY values 16, 9, 4 and 0. -/
theorem recommendation_spec_witness :
    generate_recommendation 16 =
      "STRONG BUY - Excellent yield opportunity with manageable risk" ∧
    generate_recommendation 9 =
      "BUY - Good yield opportunity, monitor impermanent loss" ∧
    generate_recommendation 4 =
      "HOLD - Moderate opportunity, consider alternatives" ∧
    generate_recommendation 0 = "AVOID - Poor risk-adjusted returns" :=
  ⟨recommendation_spec.1 16 (by decide),
    recommendation_spec.2.1 9 (by decide) (by decide),
    recommendation_spec.2.2.1 4 (by decide) (by decide),
    recommendation_spec.2.2.2.1 0 (by decide)⟩

/-- C8: the sample volatility is 0 for fewer than two data points; the
Sharpe-like ratio at risk-free rate 0.02 equals
`(mean - 0.02) / volatility` except that it is 0 whenever the volatility is
0; in particular both are 0 for a single position. -/
theorem volatility_sharpe_spec :
    (∀ l : List ℝ, l.length < 2 → calculate_volatility l = 0) ∧
    (∀ l : List ℝ, calculate_sharpe l 0.02 =
      if calculate_volatility l = 0 then 0
      else (l.sum / (l.length : ℝ) - 0.02) / calculate_volatility l) ∧
    (∀ r : ℝ, calculate_volatility [r] = 0 ∧ calculate_sharpe [r] 0.02 = 0) := by
  have hlt : ∀ l : List ℝ, l.length < 2 → calculate_volatility l = 0 :=
    fun l h => by rw [calculate_volatility, if_pos h]
  have hsh : ∀ l : List ℝ, calculate_sharpe l 0.02 =
      if calculate_volatility l = 0 then 0
      else (l.sum / (l.length : ℝ) - 0.02) / calculate_volatility l := by
    intro l
    by_cases hl : l = []
    · subst hl
      rw [calculate_sharpe, if_pos rfl, if_pos (hlt [] (by simp))]
    · simp only [calculate_sharpe, if_neg hl]
  refine ⟨hlt, hsh, fun r => ⟨hlt [r] (by simp), ?_⟩⟩
  rw [hsh [r], if_pos (hlt [r] (by simp))]

/-- Witness for C8: evaluates the theorem on the empty list and on the
singleton list `[1]`. -/
theorem volatility_sharpe_spec_witness :
    calculate_volatility ([] : List ℝ) = 0 ∧
    calculate_volatility [(1 : ℝ)] = 0 ∧ calculate_sharpe [(1 : ℝ)] 0.02 = 0 :=
  ⟨volatility_sharpe_spec.1 [] (by simp), volatility_sharpe_spec.2.2 1⟩

/-- C3 counterexample: a single position bought at entry price `-5` makes
`total_invested` equal to `-5`, which is nonzero, yet the reported
percentage is the sentinel 0 instead of the claimed
`pnl / total_invested * 100` (which is `-200` here): the code tests
`total_invested > 0`, not `total_invested != 0`. -/
theorem pnl_percentage_neg_invested :
    total_invested [⟨"X", 1, -5, 5, 0, 100⟩] ≠ 0 ∧
    pnl_percentage [⟨"X", 1, -5, 5, 0, 100⟩] = 0 ∧
    unrealized_pnl [⟨"X", 1, -5, 5, 0, 100⟩] /
        total_invested [⟨"X", 1, -5, 5, 0, 100⟩] * 100 = -200 := by
  refine ⟨by norm_num [total_invested], by norm_num [pnl_percentage, total_invested], ?_⟩
  norm_num [unrealized_pnl, total_invested, total_value]

/-- C3 amended: `calculate_portfolio_metrics` computes
`pnl = total_value - total_invested` with the claimed sums, and reports
`pnl_percentage = pnl / total_invested * 100` when `total_invested` is
strictly positive and the sentinel 0 otherwise (in particular 0 when
`total_invested` is 0). -/
theorem portfolio_pnl_spec :
    (∀ ps : List PortfolioPosition,
      unrealized_pnl ps = total_value ps - total_invested ps) ∧
    (∀ ps : List PortfolioPosition,
      total_value ps = (ps.map (fun p => p.amount * p.current_price)).sum) ∧
    (∀ ps : List PortfolioPosition,
      total_invested ps = (ps.map (fun p => p.amount * p.entry_price)).sum) ∧
    (∀ ps : List PortfolioPosition, 0 < total_invested ps →
      pnl_percentage ps = unrealized_pnl ps / total_invested ps * 100) ∧
    (∀ ps : List PortfolioPosition, ¬ 0 < total_invested ps →
      pnl_percentage ps = 0) := by
  refine ⟨fun ps => rfl, fun ps => rfl, fun ps => rfl, fun ps h => ?_, fun ps h => ?_⟩
  · rw [pnl_percentage, if_pos h]
  · rw [pnl_percentage, if_neg h]

/-- Witness for C3 amended: evaluates the branch equations of the theorem
on a one-position portfolio invested at entry price 1 (positive branch) and
at entry price `-5` (sentinel branch). -/
theorem portfolio_pnl_spec_witness :
    pnl_percentage [⟨"E", 1, 1, 2, 0, 100⟩] =
      unrealized_pnl [⟨"E", 1, 1, 2, 0, 100⟩] /
        total_invested [⟨"E", 1, 1, 2, 0, 100⟩] * 100 ∧
    pnl_percentage [⟨"X", 1, -5, 5, 0, 100⟩] = 0 :=
  ⟨portfolio_pnl_spec.2.2.2.1 [⟨"E", 1, 1, 2, 0, 100⟩] (by norm_num [total_invested]),
    portfolio_pnl_spec.2.2.2.2 [⟨"X", 1, -5, 5, 0, 100⟩] (by norm_num [total_invested])⟩

/-- C4 counterexample: on the empty portfolio the code returns 0 while the
claimed clamped Herfindahl formula evaluates to 100. -/
theorem diversification_empty_portfolio :
    calculate_diversification_score [] ≠ diversification_score_formula [] ∧
    calculate_diversification_score [] = 0 ∧
    diversification_score_formula [] = 100 := by
  refine ⟨?_, by rw [calculate_diversification_score, if_pos rfl], ?_⟩ <;>
    norm_num [calculate_diversification_score, diversification_score_formula]

/-- C4 amended: on every non-empty portfolio the diversification score
equals `(1 - Σ (allocation_i / 100)^2) * 100` clamped to `[0, 100]`
(the empty portfolio instead gets the sentinel 0); in particular one
position at allocation 100 scores 0 and four positions at allocation 25
score 75. -/
theorem diversification_spec :
    (∀ ps : List PortfolioPosition, ps ≠ [] →
      calculate_diversification_score ps = diversification_score_formula ps) ∧
    calculate_diversification_score [⟨"A", 0, 0, 0, 0, 100⟩] = 0 ∧
    calculate_diversification_score
      [⟨"A", 0, 0, 0, 0, 25⟩, ⟨"B", 0, 0, 0, 0, 25⟩,
       ⟨"C", 0, 0, 0, 0, 25⟩, ⟨"D", 0, 0, 0, 0, 25⟩] = 75 := by
  refine ⟨fun ps hps => ?_, by norm_num [calculate_diversification_score], ?_⟩
  · rw [calculate_diversification_score, if_neg hps, diversification_score_formula,
      hhi_sum_div ps]
  · rw [calculate_diversification_score, if_neg (by simp)]
    norm_num

/-- Witness for C4 amended: evaluates the theorem on the concrete
single-position portfolio at allocation 100. -/
theorem diversification_spec_witness :
    calculate_diversification_score [⟨"A", 0, 0, 0, 0, 100⟩] =
      diversification_score_formula [⟨"A", 0, 0, 0, 0, 100⟩] :=
  diversification_spec.1 [⟨"A", 0, 0, 0, 0, 100⟩] (by simp)

/-- C9 counterexample: `analyze_arbitrage_opportunity` is not a function of
its declared Python arguments (`token_symbol`, `exchanges`) alone — the
source draws the exchange prices from the global random generator, so two
calls with identical declared inputs but different ambient draws return
different reports (`buy_exchange` is `"A"` in one and `"B"` in the other). -/
theorem arbitrage_reads_ambient_state :
    analyze_arbitrage_opportunity_src "ETH" ["A", "B"] [1000, 1100] 20 "t0" ≠
      analyze_arbitrage_opportunity_src "ETH" ["A", "B"] [1100, 1000] 20 "t0" := by
  intro h
  have hb := congrArg ArbitrageFullReport.buy_exchange h
  have h1 : (analyze_arbitrage_opportunity_src "ETH" ["A", "B"]
      [1000, 1100] 20 "t0").buy_exchange = "A" := by decide
  have h2 : (analyze_arbitrage_opportunity_src "ETH" ["A", "B"]
      [1100, 1000] 20 "t0").buy_exchange = "B" := by decide
  rw [h1, h2] at hb
  exact absurd hb (by decide)

/-- C9 amended: once the ambient effects are explicit inputs, the
operations are pure — the trading fields of the arbitrage report are
determined by the declared inputs and the price draws (independent of the
gas-estimate draw and the clock), and every numeric field of the portfolio
metrics is determined by the positions alone (independent of the clock). -/
theorem analytics_determinism :
    (∀ (token_symbol : String) (exchanges : List String) (price_draws : List ℚ)
      (g1 g2 : ℚ) (t1 t2 : String),
      arbitrage_trading_view
        (analyze_arbitrage_opportunity_src token_symbol exchanges price_draws g1 t1) =
      arbitrage_trading_view
        (analyze_arbitrage_opportunity_src token_symbol exchanges price_draws g2 t2)) ∧
    (∀ (positions : List PortfolioPosition) (t1 t2 : String),
      portfolio_numeric_view (calculate_portfolio_metrics positions t1) =
      portfolio_numeric_view (calculate_portfolio_metrics positions t2)) :=
  ⟨fun _ _ _ _ _ _ _ => rfl, fun _ _ _ => rfl⟩

/-- C6: on every non-empty exchange-price mapping,
`analyze_arbitrage_opportunity` reports as `buy_price` / `sell_price` the
least / greatest quoted price, as `profit_percentage` the value
`(sell_price - buy_price) / buy_price * 100`, and is `profitable` exactly
when that percentage exceeds 0.5; the buy (resp. sell) exchange is the
first exchange in iteration order whose price equals the minimum (resp.
maximum); and on `[("A", 1000), ("B", 1100)]` the report is 10 percent
profit, buy on `A`, sell on `B`, profitable. -/
theorem arbitrage_spec :
    (∀ prices : List (String × ℚ), prices ≠ [] →
      ((analyze_arbitrage_opportunity prices).buy_price ∈ prices.map Prod.snd ∧
        ∀ q ∈ prices.map Prod.snd,
          (analyze_arbitrage_opportunity prices).buy_price ≤ q) ∧
      ((analyze_arbitrage_opportunity prices).sell_price ∈ prices.map Prod.snd ∧
        ∀ q ∈ prices.map Prod.snd,
          q ≤ (analyze_arbitrage_opportunity prices).sell_price) ∧
      (analyze_arbitrage_opportunity prices).profit_percentage =
        ((analyze_arbitrage_opportunity prices).sell_price -
            (analyze_arbitrage_opportunity prices).buy_price) /
          (analyze_arbitrage_opportunity prices).buy_price * 100 ∧
      ((analyze_arbitrage_opportunity prices).profitable = true ↔
        (analyze_arbitrage_opportunity prices).profit_percentage > 0.5)) ∧
    (∀ (pre post : List (String × ℚ)) (e : String) (p : ℚ),
      (∀ q ∈ pre, q.2 ≠ p) →
      p = list_min ((pre ++ (e, p) :: post).map Prod.snd) →
      (analyze_arbitrage_opportunity (pre ++ (e, p) :: post)).buy_exchange = e) ∧
    (∀ (pre post : List (String × ℚ)) (e : String) (p : ℚ),
      (∀ q ∈ pre, q.2 ≠ p) →
      p = list_max ((pre ++ (e, p) :: post).map Prod.snd) →
      (analyze_arbitrage_opportunity (pre ++ (e, p) :: post)).sell_exchange = e) ∧
    (analyze_arbitrage_opportunity [("A", 1000), ("B", 1100)]).profit_percentage = 10 ∧
    (analyze_arbitrage_opportunity [("A", 1000), ("B", 1100)]).buy_exchange = "A" ∧
    (analyze_arbitrage_opportunity [("A", 1000), ("B", 1100)]).sell_exchange = "B" ∧
    (analyze_arbitrage_opportunity [("A", 1000), ("B", 1100)]).profitable = true := by
  refine ⟨fun prices hp => ?_, fun pre post e p hpre hmin => ?_,
    fun pre post e p hpre hmax => ?_, ?_, by decide, by decide, ?_⟩
  · have hne : prices.map Prod.snd ≠ [] := by
      simpa [List.map_eq_nil_iff] using hp
    have hmin := list_min_spec (prices.map Prod.snd) hne
    have hmax := list_max_spec (prices.map Prod.snd) hne
    exact ⟨hmin, hmax, rfl, decide_eq_true_iff⟩
  · show ((((pre ++ (e, p) :: post).find?
        (fun q => q.2 == list_min ((pre ++ (e, p) :: post).map Prod.snd))).map
          Prod.fst).getD "") = e
    rw [← hmin,
      find?_first _ pre post (e, p)
        (fun q hq => by simp [hpre q hq]) (by simp)]
    rfl
  · show ((((pre ++ (e, p) :: post).find?
        (fun q => q.2 == list_max ((pre ++ (e, p) :: post).map Prod.snd))).map
          Prod.fst).getD "") = e
    rw [← hmax,
      find?_first _ pre post (e, p)
        (fun q hq => by simp [hpre q hq]) (by simp)]
    rfl
  · show (list_max _ - list_min _) / list_min _ * 100 = 10
    norm_num [list_min, list_max, min_def, max_def]
  · show decide ((list_max _ - list_min _) / list_min _ * 100 > 0.5) = true
    rw [decide_eq_true_iff]
    norm_num [list_min, list_max, min_def, max_def]

/-- Witness for C6: evaluates the tie-break clause of the theorem at the
concrete mapping `[("A", 1000), ("B", 900)]`, whose cheapest exchange is
the second entry. -/
theorem arbitrage_spec_witness :
    (analyze_arbitrage_opportunity [("A", 1000), ("B", 900)]).buy_exchange = "B" :=
  arbitrage_spec.2.1 [("A", 1000)] [] "B" 900 (by decide) (by decide)
